import Mathlib

/-!
Shallow embedding of the metaserve daemon (src/daemon/src/main.rs) together
with the wire constants of src/proto/src/{client,game}.rs, and theorems
checking the specification of the registry, the session loops and the
dispatcher against this embedding.

Modelling conventions:
* `slab::Slab` is a list of `Option` slots; the index is the id, `none`
  marks a vacant slot.  `Slab::insert` fills a vacant slot or appends; the
  embedding quantifies over the chosen free slot.
* `indexmap::IndexSet<usize>` is an insertion-ordered duplicate-free list;
  `insert` appends when absent, `remove` is the swap-remove of indexmap.
* Byte strings are `List Nat`; socket addresses are an ip/port pair.
* Code that panics (slab indexing of a vacant slot, the
  `expect("dirty server without addr")` in `client_inner`) is modelled by
  `Option`-valued results where the panic is reachable, and by liveness
  hypotheses where the surrounding session code guarantees the index.
-/

namespace Metaserve

/-- Socket address: ip and port as plain naturals. -/
structure SocketAddr where
  ip : Nat
  port : Nat
deriving DecidableEq

/-- Occupied-slot lookup in a slab: `some` for a live entry, `none` for a
vacant slot or an out-of-range index. -/
def slabGet (l : List (Option α)) (i : Nat) : Option α :=
  (l.get? i).getD none

/-- The slot `i` may be returned by `Slab::insert`: vacant or one past the
end. -/
def slabFree (l : List (Option α)) (i : Nat) : Prop :=
  i ≤ l.length ∧ slabGet l i = none

instance slabFreeDecidable [DecidableEq α] (l : List (Option α)) (i : Nat) :
    Decidable (slabFree l i) :=
  inferInstanceAs (Decidable (i ≤ l.length ∧ slabGet l i = none))

/-- Fill a free slot (`Slab::insert` at the slot chosen by the free list). -/
def slabInsertAt (l : List (Option α)) (i : Nat) (a : α) : List (Option α) :=
  if i = l.length then l ++ [some a] else l.set i (some a)

/-- The ids of live entries in ascending order, matching `Slab::iter`. -/
def slabIds (l : List (Option α)) : List Nat :=
  (List.range l.length).filter (fun i => (slabGet l i).isSome)

/-- `IndexSet::insert`: append when absent. -/
def indexSetInsert (l : List Nat) (x : Nat) : List Nat :=
  if x ∈ l then l else l ++ [x]

/-- Index of the first occurrence of `x`. -/
def idxOf? (x : Nat) : List Nat → Option Nat
  | [] => none
  | y :: l => if y = x then some 0 else (idxOf? x l).map (· + 1)

/-- `IndexSet::remove` of indexmap 1.x, which is `swap_remove`: overwrite the
position of `x` with the last element and pop the last slot. -/
def indexSetSwapRemove (l : List Nat) (x : Nat) : List Nat :=
  match idxOf? x l with
  | none => l
  | some i => (l.set i (l.getD (l.length - 1) 0)).dropLast

/-- `struct Server` of the daemon: last heartbeat state and the advertised
address, `none` until the first heartbeat. -/
structure Server where
  address : Option SocketAddr
  state : List Nat
deriving DecidableEq

/-- `struct Client` of the daemon: per-client dirty set and lost list. -/
structure Client where
  dirty : List Nat
  lost : List Nat
deriving DecidableEq

/-- `struct Inner`: the mutex-guarded registry. -/
structure Inner where
  servers : List (Option Server)
  clients : List (Option Client)
deriving DecidableEq

/-- The registry at daemon start. -/
def Inner.empty : Inner := ⟨[], []⟩

/-- `handle_server` entry insertion (main.rs lines 151-154): a fresh entry
with empty state and no address. -/
def insert_server (s : Inner) (i : Nat) : Inner :=
  { s with servers := slabInsertAt s.servers i { address := none, state := [] } }

/-- The mutation performed by `server_inner` when a heartbeat changed the
entry (main.rs lines 191-197): store address and state, mark the id dirty in
every client.  The lost lists are not touched. -/
def applyHeartbeat (s : Inner) (id : Nat) (addr : SocketAddr) (st : List Nat) : Inner :=
  { servers := s.servers.set id (some { address := some addr, state := st }),
    clients := s.clients.map (Option.map (fun c => { c with dirty := indexSetInsert c.dirty id })) }

/-- The critical section of `server_inner` for one heartbeat (main.rs lines
187-199).  The returned flag is the `dirty` boolean; the caller broadcasts
`dirty_notify` exactly when it is true.  In the source `inner.servers[id]`
panics on a vacant slot; the session only calls this with its own live id,
so the vacant branch (modelled as a no-op) is settled under a liveness
hypothesis in every theorem about it. -/
def update_server (s : Inner) (id : Nat) (addr : SocketAddr) (st : List Nat) : Inner × Bool :=
  match slabGet s.servers id with
  | none => (s, false)
  | some srv =>
    if st ≠ srv.state ∨ some addr ≠ srv.address then (applyHeartbeat s id addr st, true)
    else (s, false)

/-- The cleanup block of `handle_server` (main.rs lines 160-167): free the
slot, and for every client remove the id from the dirty set and push it onto
the lost list unconditionally.  `dirty_notify` is broadcast right after. -/
def remove_server (s : Inner) (id : Nat) : Inner :=
  { servers := s.servers.set id none,
    clients := s.clients.map (Option.map (fun c =>
      { dirty := indexSetSwapRemove c.dirty id, lost := c.lost ++ [id] })) }

/-- `handle_client` admission (main.rs lines 211-218): the dirty set starts
as the ids of all live servers, heartbeated or not, and the lost list starts
empty. -/
def insert_client (s : Inner) (i : Nat) : Inner :=
  { s with clients := slabInsertAt s.clients i { dirty := slabIds s.servers, lost := [] } }

/-- `handle_client` cleanup (main.rs lines 224-227): free the client slot. -/
def remove_client (s : Inner) (id : Nat) : Inner :=
  { s with clients := s.clients.set id none }

/-- `ms::client::Event`: one event of a ClientMessage. -/
inductive Event where
  | shutdown
  | update (addr : SocketAddr) (st : List Nat)
deriving DecidableEq

/-- `ms::client::Server`: one delta of a ClientMessage (the wire id is the
slab index cast to u64). -/
structure ServerDelta where
  id : Nat
  event : Event
deriving DecidableEq

/-- The Update events produced from a dirty list (main.rs lines 248-257).
`none` models the panics of that code: `inner.servers[id]` on a vacant slot
and `x.address.expect("dirty server without addr")`. -/
def dirtyDeltas (servers : List (Option Server)) : List Nat → Option (List ServerDelta)
  | [] => some []
  | i :: rest =>
    match slabGet servers i with
    | none => none
    | some srv =>
      match srv.address with
      | none => none
      | some a => (dirtyDeltas servers rest).map (fun tail => ⟨i, Event.update a srv.state⟩ :: tail)

/-- The delta produced for one dirty id when the entry is live and has an
address.  The shutdown fallbacks are unreachable under that hypothesis and
only keep the description total; the source panics there instead. -/
def dirtyDelta (servers : List (Option Server)) (i : Nat) : ServerDelta :=
  match slabGet servers i with
  | none => ⟨i, Event.shutdown⟩
  | some srv =>
    match srv.address with
    | none => ⟨i, Event.shutdown⟩
    | some a => ⟨i, Event.update a srv.state⟩

/-- The message build of `client_inner` (main.rs lines 237-261): drain the
lost list as Shutdown events, then the dirty set as Update events, and reset
both.  `none` models a panic while collecting. -/
def take_delta (s : Inner) (cid : Nat) : Option (Inner × List ServerDelta) :=
  match slabGet s.clients cid with
  | none => none
  | some c =>
    (dirtyDeltas s.servers c.dirty).map (fun ds =>
      ({ s with clients := s.clients.set cid (some { dirty := [], lost := [] }) },
       c.lost.map (fun i => ⟨i, Event.shutdown⟩) ++ ds))

/-- One registry operation, as issued by the session tasks: the slot of an
insertion is any slot `Slab::insert` may return, updates and removals use
the live id held by the session, and `take_delta` steps only when it does
not panic. -/
inductive Step : Inner → Inner → Prop where
  | insertServer (s : Inner) (i : Nat) : slabFree s.servers i → Step s (insert_server s i)
  | updateServer (s : Inner) (id : Nat) (addr : SocketAddr) (st : List Nat) :
      slabGet s.servers id ≠ none → Step s (update_server s id addr st).1
  | removeServer (s : Inner) (id : Nat) :
      slabGet s.servers id ≠ none → Step s (remove_server s id)
  | insertClient (s : Inner) (i : Nat) : slabFree s.clients i → Step s (insert_client s i)
  | removeClient (s : Inner) (id : Nat) :
      slabGet s.clients id ≠ none → Step s (remove_client s id)
  | takeDelta (s : Inner) (id : Nat) (s2 : Inner) (msg : List ServerDelta) :
      take_delta s id = some (s2, msg) → Step s s2

/-- Registry states reachable from the empty registry. -/
def Reachable (s : Inner) : Prop := Relation.ReflTransGen Step Inner.empty s

/-- `Step` restricted to traces in which a server slot is only allocated
while its id is absent from every dirty set and lost list. -/
inductive StepFresh : Inner → Inner → Prop where
  | insertServer (s : Inner) (i : Nat) :
      slabFree s.servers i →
      (∀ cid c, slabGet s.clients cid = some c → i ∉ c.dirty ∧ i ∉ c.lost) →
      StepFresh s (insert_server s i)
  | updateServer (s : Inner) (id : Nat) (addr : SocketAddr) (st : List Nat) :
      slabGet s.servers id ≠ none → StepFresh s (update_server s id addr st).1
  | removeServer (s : Inner) (id : Nat) :
      slabGet s.servers id ≠ none → StepFresh s (remove_server s id)
  | insertClient (s : Inner) (i : Nat) : slabFree s.clients i → StepFresh s (insert_client s i)
  | removeClient (s : Inner) (id : Nat) :
      slabGet s.clients id ≠ none → StepFresh s (remove_client s id)
  | takeDelta (s : Inner) (id : Nat) (s2 : Inner) (msg : List ServerDelta) :
      take_delta s id = some (s2, msg) → StepFresh s s2

/-- Registry states reachable without reusing a server id that is still
recorded in some dirty set or lost list. -/
def ReachableFresh (s : Inner) : Prop := Relation.ReflTransGen StepFresh Inner.empty s

/-- Per-client part of the registry invariant: the dirty set is
duplicate-free, every dirty id is live, every lost id is dead. -/
def ClientOK (s : Inner) (c : Client) : Prop :=
  c.dirty.Nodup ∧ (∀ i ∈ c.dirty, slabGet s.servers i ≠ none) ∧
    (∀ i ∈ c.lost, slabGet s.servers i = none)

/-- Registry invariant: every live client satisfies `ClientOK`. -/
def GoodState (s : Inner) : Prop :=
  ∀ cid c, slabGet s.clients cid = some c → ClientOK s c

/-- A concrete test address. -/
def addrA : SocketAddr := ⟨1, 2⟩

/-- Trace: a server connects. -/
def t1 : Inner := insert_server Inner.empty 0
/-- Trace: the server heartbeats once. -/
def t2 : Inner := (update_server t1 0 addrA [7]).1
/-- Trace: a client is admitted. -/
def t3 : Inner := insert_client t2 0
/-- Trace: the client transmits its snapshot. -/
def t4 : Inner := { t3 with clients := t3.clients.set 0 (some { dirty := [], lost := [] }) }
/-- Trace: the server disconnects. -/
def t5 : Inner := remove_server t4 0
/-- Trace: a new server connects and the slab reuses id 0. -/
def t6 : Inner := insert_server t5 0
/-- Trace: the new server heartbeats once. -/
def t7 : Inner := (update_server t6 0 addrA [7]).1

/-- A state where a server entry exists before any heartbeat and a client
has just been admitted. -/
def sBug : Inner := insert_client t1 0

/-- A state with one heartbeat-less server and one client whose lost list
holds id 9: exercises `update_server` against the lost list. -/
def s4w : Inner := ⟨[some { address := none, state := [] }], [some { dirty := [], lost := [9] }]⟩

/-- A state with one advertisable server and one client with a nonempty
lost list and dirty set: exercises `take_delta`. -/
def s5w : Inner :=
  ⟨[some { address := some addrA, state := [7] }], [some { dirty := [0], lost := [5] }]⟩

/-- A state with a single heartbeat-less server: exercises repeated
`update_server`. -/
def s10w : Inner := ⟨[some { address := none, state := [] }], []⟩

/-- One incoming uni-stream on a server connection: either the transport
fails or a body is delivered; the end of the list is the stream source
ending without an error. -/
inductive StreamItem where
  | err
  | data (bytes : List Nat)
deriving DecidableEq

/-- bincode (fixint, little endian) decoding of `game::Hello`, a single u16
port.  Fewer than two bytes is a decode error; `bincode::deserialize` on a
slice does not reject trailing bytes. -/
def helloDecode : List Nat → Option Nat
  | p0 :: p1 :: _ => some (p0 + 256 * p1)
  | _ => none

/-- Abstract actions of a session loop that the timing argument tracks. -/
inductive SOp where
  | apply
  | sleepOne
  | waitNotify
  | send
deriving DecidableEq

/-- Result of running a session body over its modelled input: the final
registry, whether the body returned Ok, and the action trace. -/
structure LoopOut where
  reg : Inner
  ok : Bool
  ops : List SOp
deriving DecidableEq

/-- The heartbeat loop of `server_inner` (main.rs lines 183-205): per
stream, fail on transport error or an oversized body, otherwise apply the
heartbeat and sleep one second before the next accept.  Returning with
`ok = true` models the stream source ending without an error. -/
def serverLoop (cap : Nat) (addr : SocketAddr) (id : Nat) : Inner → List StreamItem → LoopOut
  | s, [] => ⟨s, true, []⟩
  | s, .err :: _ => ⟨s, false, []⟩
  | s, .data b :: rest =>
    if cap < b.length then ⟨s, false, []⟩
    else
      let out := serverLoop cap addr id (update_server s id addr b).1 rest
      ⟨out.reg, out.ok, SOp.apply :: SOp.sleepOne :: out.ops⟩

/-- `server_inner` (main.rs lines 175-208): read and decode the Hello from
the first stream, then run the heartbeat loop with the address derived from
the peer ip and the Hello port.  An absent first stream returns Ok. -/
def server_inner (cap ip id : Nat) (s : Inner) (input : List StreamItem) : LoopOut :=
  match input with
  | [] => ⟨s, true, []⟩
  | .err :: _ => ⟨s, false, []⟩
  | .data b :: rest =>
    if cap < b.length then ⟨s, false, []⟩
    else
      match helloDecode b with
      | none => ⟨s, false, []⟩
      | some port => serverLoop cap ⟨ip, port⟩ id s rest

/-- `handle_server` (main.rs lines 150-173): allocate the entry, run
`server_inner`, and run the cleanup block only when it returned an error. -/
def handle_server (cap ip i : Nat) (s : Inner) (input : List StreamItem) : Inner :=
  let out := server_inner cap ip i (insert_server s i) input
  if out.ok then out.reg else remove_server out.reg i

/-- The action trace of one server session. -/
def serverOps (cap ip id : Nat) (s : Inner) (input : List StreamItem) : List SOp :=
  (server_inner cap ip id s input).ops

/-- The heartbeat-loop action trace, standalone. -/
def heartbeatOps (cap : Nat) : List StreamItem → List SOp
  | [] => []
  | .err :: _ => []
  | .data b :: rest =>
    if cap < b.length then [] else SOp.apply :: SOp.sleepOne :: heartbeatOps cap rest

/-- The action trace of `client_inner` (main.rs lines 234-278) over `n`
loop iterations: send the delta, then sleep one second, then await a dirty
notification, in that order, before the next send. -/
def clientOps : Nat → List SOp
  | 0 => []
  | n + 1 => SOp.send :: SOp.sleepOne :: SOp.waitNotify :: clientOps n

/-- A timestamp assignment for an action trace: `t` has one entry before
each action and one after the last, times never decrease, and a one-second
sleep advances the clock by at least one unit. -/
def Timed (ops : List SOp) (t : List Nat) : Prop :=
  t.length = ops.length + 1 ∧
  (∀ k, k < ops.length → t.getD k 0 ≤ t.getD (k + 1) 0) ∧
  (∀ k, k < ops.length → ops.get? k = some SOp.sleepOne → t.getD k 0 + 1 ≤ t.getD (k + 1) 0)

instance timedDecidable (ops : List SOp) (t : List Nat) : Decidable (Timed ops t) :=
  inferInstanceAs (Decidable (t.length = ops.length + 1 ∧
    (∀ k, k < ops.length → t.getD k 0 ≤ t.getD (k + 1) 0) ∧
    (∀ k, k < ops.length → ops.get? k = some SOp.sleepOne →
      t.getD k 0 + 1 ≤ t.getD (k + 1) 0)))

/-- ALPN id of game-server connections (src/proto/src/game.rs). -/
def gamePROTOCOL : List Nat :=
  [0x72, 0x7F, 0x4A, 0x53, 0x03, 0xDF, 0xDD, 0xB3, 0xAC, 0x79, 0x9E, 0x0F, 0x49, 0xB1, 0xE3, 0x60]

/-- ALPN id of client connections (src/proto/src/client.rs). -/
def clientPROTOCOL : List Nat :=
  [0xB6, 0x46, 0x55, 0x6E, 0x05, 0x65, 0xD0, 0x9C, 0xD2, 0xFA, 0xEE, 0x31, 0xFD, 0x8A, 0x0A, 0x95]

/-- Outcome of awaiting one incoming connection: handshake failure, or a
completed handshake with its negotiated ALPN. -/
inductive ConnOutcome where
  | hsFail
  | hsOk (alpn : Option (List Nat))
deriving DecidableEq

/-- What `dispatch` does with a connection. -/
inductive DispatchOut where
  | serverSession
  | clientSession
  | logDrop
  | panicked
deriving DecidableEq

/-- `State::dispatch` (main.rs lines 129-148): a failed handshake is logged
and dropped; a completed handshake is routed on its negotiated ALPN, where
an absent protocol hits `.unwrap()` and an unknown one hits
`unreachable!()`, both of which panic the dispatch task. -/
def dispatch : ConnOutcome → DispatchOut
  | .hsFail => .logDrop
  | .hsOk none => .panicked
  | .hsOk (some a) =>
    if a = gamePROTOCOL then .serverSession
    else if a = clientPROTOCOL then .clientSession
    else .panicked

theorem slabGet_nil (i : Nat) : slabGet ([] : List (Option α)) i = none := by
  cases i <;> rfl

theorem slabGet_lt {l : List (Option α)} {i : Nat} (h : slabGet l i ≠ none) : i < l.length := by
  by_contra hge
  exact h (by unfold slabGet; rw [List.get?_eq_none.mpr (Nat.le_of_not_lt hge)]; rfl)

theorem slabGet_set_self (l : List (Option α)) (i : Nat) (a : Option α) (h : i < l.length) :
    slabGet (l.set i a) i = a := by
  unfold slabGet
  rw [List.get?_set_eq]
  cases hg : l.get? i with
  | none => exact absurd (List.get?_eq_none.mp hg) (Nat.not_le.mpr h)
  | some b => rfl

theorem slabGet_set_ne (l : List (Option α)) {i j : Nat} (a : Option α) (h : i ≠ j) :
    slabGet (l.set i a) j = slabGet l j := by
  unfold slabGet
  rw [List.get?_set_ne _ _ h]

theorem slabGet_set_none (l : List (Option α)) (i : Nat) : slabGet (l.set i none) i = none := by
  by_cases h : i < l.length
  · exact slabGet_set_self l i none h
  · unfold slabGet
    rw [List.get?_eq_none.mpr (by rw [List.length_set]; exact Nat.le_of_not_lt h)]
    rfl

theorem slabGet_map (f : α → β) (l : List (Option α)) (i : Nat) :
    slabGet (l.map (Option.map f)) i = Option.map f (slabGet l i) := by
  unfold slabGet
  rw [List.get?_map]
  cases l.get? i with
  | none => rfl
  | some o => cases o <;> rfl

theorem slabGet_insertAt_self (l : List (Option α)) (i : Nat) (a : α) (h : slabFree l i) :
    slabGet (slabInsertAt l i a) i = some a := by
  unfold slabInsertAt
  by_cases he : i = l.length
  · rw [if_pos he, he]
    unfold slabGet
    rw [List.get?_concat_length]
    rfl
  · rw [if_neg he]
    exact slabGet_set_self l i (some a) (Nat.lt_of_le_of_ne h.1 he)

theorem slabGet_insertAt_ne (l : List (Option α)) {i j : Nat} (a : α) (hne : j ≠ i) :
    slabGet (slabInsertAt l i a) j = slabGet l j := by
  unfold slabInsertAt
  by_cases he : i = l.length
  · rw [if_pos he]
    by_cases hj : j < l.length
    · unfold slabGet
      rw [List.get?_append hj]
    · have hjne : j ≠ l.length := fun hx => hne (hx.trans he.symm)
      unfold slabGet
      rw [List.get?_eq_none.mpr (Nat.le_of_not_lt hj),
        List.get?_eq_none.mpr (by rw [List.length_append, List.length_singleton]; omega)]
  · rw [if_neg he]
    exact slabGet_set_ne l (some a) (fun hx => hne hx.symm)

theorem mem_slabIds {l : List (Option α)} {i : Nat} :
    i ∈ slabIds l ↔ i < l.length ∧ slabGet l i ≠ none := by
  unfold slabIds
  rw [List.mem_filter, List.mem_range]
  constructor
  · rintro ⟨h1, h2⟩
    exact ⟨h1, Option.isSome_iff_ne_none.mp h2⟩
  · rintro ⟨h1, h2⟩
    exact ⟨h1, Option.isSome_iff_ne_none.mpr h2⟩

theorem nodup_slabIds (l : List (Option α)) : (slabIds l).Nodup :=
  (List.nodup_range _).filter _

theorem mem_indexSetInsert (l : List Nat) (x y : Nat) :
    y ∈ indexSetInsert l x ↔ y ∈ l ∨ y = x := by
  unfold indexSetInsert
  by_cases h : x ∈ l
  · rw [if_pos h]
    constructor
    · exact Or.inl
    · rintro (hy | rfl)
      · exact hy
      · exact h
  · rw [if_neg h, List.mem_append, List.mem_singleton]

theorem nodup_indexSetInsert (l : List Nat) (x : Nat) (h : l.Nodup) :
    (indexSetInsert l x).Nodup := by
  unfold indexSetInsert
  by_cases hx : x ∈ l
  · rw [if_pos hx]; exact h
  · rw [if_neg hx]
    rw [List.nodup_append]
    exact ⟨h, List.nodup_singleton x, by
      intro a ha hb
      rw [List.mem_singleton] at hb
      exact hx (hb ▸ ha)⟩

theorem idxOf?_eq_none {l : List Nat} {x : Nat} (h : idxOf? x l = none) : x ∉ l := by
  induction l with
  | nil => exact List.not_mem_nil x
  | cons y l ih =>
    unfold idxOf? at h
    by_cases he : y = x
    · rw [if_pos he] at h
      exact absurd h (by simp)
    · rw [if_neg he] at h
      intro hm
      rcases List.mem_cons.mp hm with rfl | hm2
      · exact he rfl
      · exact ih (by cases hi : idxOf? x l with
          | none => rfl
          | some j => rw [hi] at h; exact absurd h (by simp)) hm2

theorem idxOf?_get? {l : List Nat} {x : Nat} {i : Nat} (h : idxOf? x l = some i) :
    l.get? i = some x := by
  induction l generalizing i with
  | nil => exact absurd h (by simp [idxOf?])
  | cons y l ih =>
    unfold idxOf? at h
    by_cases he : y = x
    · rw [if_pos he] at h
      cases h
      rw [he]
      rfl
    · rw [if_neg he] at h
      cases hi : idxOf? x l with
      | none => rw [hi] at h; exact absurd h (by simp)
      | some j =>
        rw [hi] at h
        simp only [Option.map_some'] at h
        cases h
        simpa using ih hi

theorem indexSetSwapRemove_eq_none {l : List Nat} {x : Nat} (hidx : idxOf? x l = none) :
    indexSetSwapRemove l x = l := by
  unfold indexSetSwapRemove
  rw [hidx]

theorem indexSetSwapRemove_eq_some {l : List Nat} {x ix : Nat} (hidx : idxOf? x l = some ix) :
    indexSetSwapRemove l x = (l.set ix (l.getD (l.length - 1) 0)).dropLast := by
  unfold indexSetSwapRemove
  rw [hidx]

theorem get?_indexSetSwapRemove {l : List Nat} {x ix : Nat} (hidx : idxOf? x l = some ix)
    (j : Nat) :
    (indexSetSwapRemove l x).get? j =
      if j < l.length - 1 then
        (if j = ix then some (l.getD (l.length - 1) 0) else l.get? j)
      else none := by
  rw [indexSetSwapRemove_eq_some hidx]
  by_cases hj : j < l.length - 1
  · rw [if_pos hj, List.dropLast_eq_take, List.length_set,
      List.get?_take hj]
    by_cases hji : j = ix
    · rw [if_pos hji, hji, List.get?_set_eq]
      have := idxOf?_get? hidx
      rw [this]
      rfl
    · rw [if_neg hji, List.get?_set_ne _ _ (fun hx2 => hji hx2.symm)]
  · rw [if_neg hj]
    rw [List.get?_eq_none.mpr]
    rw [List.length_dropLast, List.length_set]
    exact Nat.le_of_not_lt hj

theorem length_indexSetSwapRemove {l : List Nat} {x ix : Nat} (hidx : idxOf? x l = some ix) :
    (indexSetSwapRemove l x).length = l.length - 1 := by
  rw [indexSetSwapRemove_eq_some hidx, List.length_dropLast, List.length_set]

theorem mem_indexSetSwapRemove {l : List Nat} (h : l.Nodup) (x y : Nat) :
    y ∈ indexSetSwapRemove l x ↔ y ∈ l ∧ y ≠ x := by
  cases hidx : idxOf? x l with
  | none =>
    have hx : x ∉ l := idxOf?_eq_none hidx
    rw [indexSetSwapRemove_eq_none hidx]
    constructor
    · intro hy
      exact ⟨hy, fun hyx => hx (hyx ▸ hy)⟩
    · exact fun hy => hy.1
  | some ix =>
    have hx : l.get? ix = some x := idxOf?_get? hidx
    have hix : ix < l.length := by
      rcases List.get?_eq_some.mp hx with ⟨hh, _⟩
      exact hh
    constructor
    · intro hy
      rcases List.mem_iff_get?.mp hy with ⟨j, hj⟩
      rw [get?_indexSetSwapRemove hidx] at hj
      by_cases hjlt : j < l.length - 1
      · rw [if_pos hjlt] at hj
        by_cases hji : j = ix
        · rw [if_pos hji] at hj
          have hv : l.get? (l.length - 1) = some y := by
            rw [List.getD_eq_get?] at hj
            cases hg : l.get? (l.length - 1) with
            | none =>
              exact absurd (List.get?_eq_none.mp hg) (by omega)
            | some v =>
              rw [hg] at hj
              exact hj
          constructor
          · exact List.get?_mem hv
          · intro hyx
            have : l.length - 1 = ix := List.get?_inj (by omega) h (by rw [hv, hx, hyx])
            omega
        · rw [if_neg hji] at hj
          constructor
          · exact List.get?_mem hj
          · intro hyx
            exact hji (List.get?_inj (by omega) h (by rw [hj, hx, hyx]))
      · rw [if_neg hjlt] at hj
        exact absurd hj (by simp)
    · rintro ⟨hy, hyx⟩
      rcases List.mem_iff_get?.mp hy with ⟨j, hj⟩
      have hjlen : j < l.length := by
        rcases List.get?_eq_some.mp hj with ⟨hh, _⟩
        exact hh
      have hji : j ≠ ix := fun he => hyx (by
        rw [he, hx] at hj
        cases hj
        rfl)
      rw [List.mem_iff_get?]
      by_cases hjlt : j < l.length - 1
      · exact ⟨j, by rw [get?_indexSetSwapRemove hidx, if_pos hjlt, if_neg hji, hj]⟩
      · have hje : j = l.length - 1 := by omega
        have hixlt : ix < l.length - 1 := by omega
        refine ⟨ix, ?_⟩
        rw [get?_indexSetSwapRemove hidx, if_pos hixlt, if_pos rfl, List.getD_eq_get?, ← hje, hj]
        rfl

theorem nodup_indexSetSwapRemove {l : List Nat} (h : l.Nodup) (x : Nat) :
    (indexSetSwapRemove l x).Nodup := by
  cases hidx : idxOf? x l with
  | none =>
    rw [indexSetSwapRemove_eq_none hidx]
    exact h
  | some ix =>
    have hx : l.get? ix = some x := idxOf?_get? hidx
    have hix : ix < l.length := by
      rcases List.get?_eq_some.mp hx with ⟨hh, _⟩
      exact hh
    rw [List.nodup_iff_get?_ne_get?]
    intro i j hij hjlen heq
    rw [length_indexSetSwapRemove hidx] at hjlen
    have hilt : i < l.length - 1 := by omega
    rw [get?_indexSetSwapRemove hidx, if_pos hilt] at heq
    rw [get?_indexSetSwapRemove hidx, if_pos hjlen] at heq
    have hlast : l.get? (l.length - 1) = some (l.getD (l.length - 1) 0) := by
      rw [List.getD_eq_get?]
      cases hg : l.get? (l.length - 1) with
      | none => exact absurd (List.get?_eq_none.mp hg) (by omega)
      | some v => rfl
    by_cases hii : i = ix
    · rw [if_pos hii] at heq
      by_cases hjj : j = ix
      · omega
      · rw [if_neg hjj] at heq
        have : l.length - 1 = j := List.get?_inj (by omega) h (by rw [hlast, heq])
        omega
    · rw [if_neg hii] at heq
      by_cases hjj : j = ix
      · rw [if_pos hjj] at heq
        have : i = l.length - 1 := List.get?_inj (by omega) h (by rw [hlast, heq])
        omega
      · rw [if_neg hjj] at heq
        have : i = j := List.get?_inj (by omega) h heq
        omega

theorem slabGet_map_some {f : α → β} {l : List (Option α)} {i : Nat} {b : β}
    (h : slabGet (l.map (Option.map f)) i = some b) : ∃ a, slabGet l i = some a ∧ b = f a := by
  rw [slabGet_map] at h
  cases hg : slabGet l i with
  | none => rw [hg] at h; exact absurd h (by simp)
  | some a =>
    rw [hg] at h
    exact ⟨a, rfl, (Option.some.inj h).symm⟩

theorem good_insert_server {s : Inner} {i : Nat} (hg : GoodState s) (hfree : slabFree s.servers i)
    (hcl : ∀ cid c, slabGet s.clients cid = some c → i ∉ c.lost) :
    GoodState (insert_server s i) := by
  intro cid c hc
  obtain ⟨hnd, hdl, hld⟩ := hg cid c hc
  refine ⟨hnd, ?_, ?_⟩
  · intro j hj
    by_cases hji : j = i
    · subst hji
      show slabGet (slabInsertAt s.servers j { address := none, state := [] }) j ≠ none
      rw [slabGet_insertAt_self _ _ _ hfree]
      simp
    · show slabGet (slabInsertAt s.servers i { address := none, state := [] }) j ≠ none
      rw [slabGet_insertAt_ne _ _ hji]
      exact hdl j hj
  · intro j hj
    have hji : j ≠ i := fun he => (hcl cid c hc) (he ▸ hj)
    show slabGet (slabInsertAt s.servers i { address := none, state := [] }) j = none
    rw [slabGet_insertAt_ne _ _ hji]
    exact hld j hj

theorem good_update_server {s : Inner} {id : Nat} {addr : SocketAddr} {st : List Nat}
    (hg : GoodState s) (hlive : slabGet s.servers id ≠ none) :
    GoodState (update_server s id addr st).1 := by
  cases hs : slabGet s.servers id with
  | none => exact absurd hs hlive
  | some srv =>
    have he : update_server s id addr st =
        if st ≠ srv.state ∨ some addr ≠ srv.address then (applyHeartbeat s id addr st, true)
        else (s, false) := by
      unfold update_server
      rw [hs]
    by_cases hcond : st ≠ srv.state ∨ some addr ≠ srv.address
    · rw [he, if_pos hcond]
      intro cid c2 hc2
      rcases slabGet_map_some hc2 with ⟨c, hcget, rfl⟩
      obtain ⟨hnd, hdl, hld⟩ := hg cid c hcget
      have hidlen : id < s.servers.length := slabGet_lt hlive
      refine ⟨nodup_indexSetInsert _ _ hnd, ?_, ?_⟩
      · intro j hj
        rcases (mem_indexSetInsert c.dirty id j).mp hj with hjd | rfl
        · by_cases hji : j = id
          · subst hji
            show slabGet (s.servers.set j (some { address := some addr, state := st })) j ≠ none
            rw [slabGet_set_self _ _ _ hidlen]
            simp
          · show slabGet (s.servers.set id (some { address := some addr, state := st })) j ≠ none
            rw [slabGet_set_ne _ _ (fun hx => hji hx.symm)]
            exact hdl j hjd
        · show slabGet (s.servers.set j (some { address := some addr, state := st })) j ≠ none
          rw [slabGet_set_self _ _ _ hidlen]
          simp
      · intro j hj
        have hji : j ≠ id := fun he2 => hlive (he2 ▸ hld j hj)
        show slabGet (s.servers.set id (some { address := some addr, state := st })) j = none
        rw [slabGet_set_ne _ _ (fun hx => hji hx.symm)]
        exact hld j hj
    · rw [he, if_neg hcond]
      exact hg

theorem good_remove_server {s : Inner} {id : Nat} (hg : GoodState s) :
    GoodState (remove_server s id) := by
  intro cid c2 hc2
  rcases slabGet_map_some hc2 with ⟨c, hcget, rfl⟩
  obtain ⟨hnd, hdl, hld⟩ := hg cid c hcget
  refine ⟨nodup_indexSetSwapRemove hnd id, ?_, ?_⟩
  · intro j hj
    rcases (mem_indexSetSwapRemove hnd id j).mp hj with ⟨hjd, hji⟩
    show slabGet (s.servers.set id none) j ≠ none
    rw [slabGet_set_ne _ _ (fun hx => hji hx.symm)]
    exact hdl j hjd
  · intro j hj
    rcases List.mem_append.mp hj with hjl | hje
    · show slabGet (s.servers.set id none) j = none
      by_cases hji : j = id
      · subst hji
        exact slabGet_set_none _ _
      · rw [slabGet_set_ne _ _ (fun hx => hji hx.symm)]
        exact hld j hjl
    · rw [List.mem_singleton] at hje
      subst hje
      exact slabGet_set_none _ _

theorem good_insert_client {s : Inner} {i : Nat} (hg : GoodState s) (hfree : slabFree s.clients i) :
    GoodState (insert_client s i) := by
  intro cid c hc
  by_cases hci : cid = i
  · subst hci
    rw [show (insert_client s cid).clients
        = slabInsertAt s.clients cid { dirty := slabIds s.servers, lost := [] } from rfl] at hc
    rw [slabGet_insertAt_self _ _ _ hfree] at hc
    obtain rfl := Option.some.inj hc
    refine ⟨nodup_slabIds _, ?_, ?_⟩
    · intro j hj
      exact (mem_slabIds.mp hj).2
    · intro j hj
      exact absurd hj (List.not_mem_nil j)
  · have hc2 : slabGet s.clients cid = some c := by
      rw [show (insert_client s i).clients
          = slabInsertAt s.clients i { dirty := slabIds s.servers, lost := [] } from rfl] at hc
      rw [slabGet_insertAt_ne _ _ hci] at hc
      exact hc
    exact hg cid c hc2

theorem good_remove_client {s : Inner} {id : Nat} (hg : GoodState s) :
    GoodState (remove_client s id) := by
  intro cid c hc
  by_cases hci : cid = id
  · subst hci
    rw [show (remove_client s cid).clients = s.clients.set cid none from rfl] at hc
    rw [slabGet_set_none] at hc
    exact absurd hc (by simp)
  · have hc2 : slabGet s.clients cid = some c := by
      rw [show (remove_client s id).clients = s.clients.set id none from rfl] at hc
      rw [slabGet_set_ne _ _ (fun hx => hci hx.symm)] at hc
      exact hc
    exact hg cid c hc2

theorem take_delta_eq_some {s : Inner} {cid : Nat} {c : Client}
    (hc : slabGet s.clients cid = some c) :
    take_delta s cid = (dirtyDeltas s.servers c.dirty).map (fun ds =>
      ({ s with clients := s.clients.set cid (some { dirty := [], lost := [] }) },
       c.lost.map (fun i => ⟨i, Event.shutdown⟩) ++ ds)) := by
  unfold take_delta
  rw [hc]

theorem good_take_delta {s : Inner} {cid0 : Nat} {s2 : Inner} {msg : List ServerDelta}
    (hg : GoodState s) (h : take_delta s cid0 = some (s2, msg)) : GoodState s2 := by
  cases hcget : slabGet s.clients cid0 with
  | none =>
    unfold take_delta at h
    rw [hcget] at h
    exact absurd h (by simp)
  | some c =>
    rw [take_delta_eq_some hcget] at h
    cases hds : dirtyDeltas s.servers c.dirty with
    | none =>
      rw [hds] at h
      exact absurd h (by simp)
    | some ds =>
      rw [hds] at h
      simp only [Option.map_some'] at h
      injection h with hpair
      injection hpair with ha hb
      subst ha
      intro cid c2 hc2
      have hc2b : slabGet (s.clients.set cid0 (some { dirty := [], lost := [] })) cid
          = some c2 := hc2
      by_cases hci : cid = cid0
      · subst hci
        rw [slabGet_set_self _ _ _ (slabGet_lt (by rw [hcget]; simp))] at hc2b
        obtain rfl := Option.some.inj hc2b
        exact ⟨List.nodup_nil, fun j hj => absurd hj (List.not_mem_nil j),
          fun j hj => absurd hj (List.not_mem_nil j)⟩
      · have hc3 : slabGet s.clients cid = some c2 := by
          rw [slabGet_set_ne _ _ (fun hx => hci hx.symm)] at hc2b
          exact hc2b
        exact hg cid c2 hc3

theorem goodState_empty : GoodState Inner.empty := by
  intro cid c hc
  rw [show Inner.empty.clients = [] from rfl, slabGet_nil] at hc
  exact absurd hc (by simp)

theorem goodState_of_reachableFresh {s : Inner} (h : ReachableFresh s) : GoodState s := by
  induction h with
  | refl => exact goodState_empty
  | tail hr hstep ih =>
    cases hstep with
    | insertServer i hfree hclean =>
      exact good_insert_server ih hfree (fun cid c hc => (hclean cid c hc).2)
    | updateServer id addr st hlive => exact good_update_server ih hlive
    | removeServer id hlive => exact good_remove_server ih
    | insertClient i hfree => exact good_insert_client ih hfree
    | removeClient id hlive => exact good_remove_client ih
    | takeDelta id s3 msg htd => exact good_take_delta ih htd

theorem dirtyDelta_eq_live {servers : List (Option Server)} {i : Nat} {srv : Server}
    (hs : slabGet servers i = some srv) :
    dirtyDelta servers i =
      match srv.address with
      | none => ⟨i, Event.shutdown⟩
      | some a => ⟨i, Event.update a srv.state⟩ := by
  unfold dirtyDelta
  rw [hs]

theorem dirtyDelta_eq {servers : List (Option Server)} {i : Nat} {srv : Server} {a : SocketAddr}
    (hs : slabGet servers i = some srv) (ha : srv.address = some a) :
    dirtyDelta servers i = ⟨i, Event.update a srv.state⟩ := by
  rw [dirtyDelta_eq_live hs, ha]

theorem dirtyDeltas_cons_live {servers : List (Option Server)} {i : Nat} {srv : Server}
    (hs : slabGet servers i = some srv) (rest : List Nat) :
    dirtyDeltas servers (i :: rest) =
      match srv.address with
      | none => none
      | some a =>
        (dirtyDeltas servers rest).map (fun tail => ⟨i, Event.update a srv.state⟩ :: tail) := by
  conv_lhs => rw [dirtyDeltas]
  rw [hs]

theorem dirtyDeltas_eq_map (servers : List (Option Server)) :
    ∀ d : List Nat, (∀ i ∈ d, ((slabGet servers i).bind Server.address).isSome = true) →
      dirtyDeltas servers d = some (d.map (dirtyDelta servers)) := by
  intro d
  induction d with
  | nil => intro _; rfl
  | cons i rest ih =>
    intro h
    have hi := h i (List.mem_cons_self i rest)
    cases hs : slabGet servers i with
    | none =>
      rw [hs] at hi
      exact absurd hi (by simp)
    | some srv =>
      cases ha : srv.address with
      | none =>
        rw [hs] at hi
        simp only [Option.some_bind] at hi
        rw [ha] at hi
        exact absurd hi (by simp)
      | some a =>
        rw [dirtyDeltas_cons_live hs, ha, ih (fun j hj => h j (List.mem_cons_of_mem i hj)),
          List.map_cons, dirtyDelta_eq hs ha]
        rfl

theorem timed_mono {ops : List SOp} {t : List Nat} (ht : Timed ops t) :
    ∀ a b, a ≤ b → b ≤ ops.length → t.getD a 0 ≤ t.getD b 0 := by
  obtain ⟨hlen, hmono, hsleep⟩ := ht
  intro a b hab hble
  induction b with
  | zero =>
    have := Nat.le_zero.mp hab
    subst this
    exact Nat.le_refl _
  | succ n ihn =>
    rcases Nat.lt_or_ge a (n + 1) with hlt | hge
    · exact Nat.le_trans (ihn (by omega) (by omega)) (hmono n (by omega))
    · have he : a = n + 1 := by omega
      subst he
      exact Nat.le_refl _

theorem timed_gap {ops : List SOp} {t : List Nat} (ht : Timed ops t) {i j : Nat}
    (hij : i + 1 < j) (hjlen : j ≤ ops.length)
    (hsl : ops.get? (i + 1) = some SOp.sleepOne) :
    t.getD i 0 + 1 ≤ t.getD j 0 := by
  have h1 : t.getD i 0 ≤ t.getD (i + 1) 0 := ht.2.1 i (by omega)
  have h2 : t.getD (i + 1) 0 + 1 ≤ t.getD (i + 2) 0 := ht.2.2 (i + 1) (by omega) hsl
  have h3 : t.getD (i + 2) 0 ≤ t.getD j 0 := timed_mono ht (i + 2) j (by omega) hjlen
  omega

theorem get?_lt_length {l : List α} {i : Nat} {a : α} (h : l.get? i = some a) : i < l.length := by
  rcases List.get?_eq_some.mp h with ⟨hh, _⟩
  exact hh

theorem heartbeatOps_apply_pattern (cap : Nat) :
    ∀ (input : List StreamItem) (i : Nat),
      (heartbeatOps cap input).get? i = some SOp.apply →
      i % 2 = 0 ∧ (heartbeatOps cap input).get? (i + 1) = some SOp.sleepOne := by
  intro input
  induction input with
  | nil =>
    intro i h
    exact absurd h (by simp [heartbeatOps])
  | cons x rest ih =>
    intro i h
    cases x with
    | err => exact absurd h (by simp [heartbeatOps])
    | data b =>
      by_cases hc : cap < b.length
      · rw [show heartbeatOps cap (StreamItem.data b :: rest) = [] from by
          rw [heartbeatOps, if_pos hc]] at h
        exact absurd h (by simp)
      · rw [show heartbeatOps cap (StreamItem.data b :: rest)
            = SOp.apply :: SOp.sleepOne :: heartbeatOps cap rest from by
          rw [heartbeatOps, if_neg hc]] at h ⊢
        cases i with
        | zero => exact ⟨rfl, rfl⟩
        | succ i2 =>
          cases i2 with
          | zero => simp at h
          | succ k =>
            have hk := ih k (by simpa using h)
            exact ⟨by omega, by simpa using hk.2⟩

theorem clientOps_send_pattern :
    ∀ (n i : Nat), (clientOps n).get? i = some SOp.send →
      i % 3 = 0 ∧ (clientOps n).get? (i + 1) = some SOp.sleepOne ∧
        (clientOps n).get? (i + 2) = some SOp.waitNotify := by
  intro n
  induction n with
  | zero =>
    intro i h
    exact absurd h (by simp [clientOps])
  | succ n ih =>
    intro i h
    rw [show clientOps (n + 1)
        = SOp.send :: SOp.sleepOne :: SOp.waitNotify :: clientOps n from rfl] at h ⊢
    cases i with
    | zero => exact ⟨rfl, rfl, rfl⟩
    | succ i2 =>
      cases i2 with
      | zero => simp at h
      | succ i3 =>
        cases i3 with
        | zero => simp at h
        | succ k =>
          have hk := ih k (by simpa using h)
          exact ⟨by omega, by simpa using hk.2.1, by simpa using hk.2.2⟩

theorem serverLoop_ops_eq (cap : Nat) (addr : SocketAddr) (id : Nat) :
    ∀ (input : List StreamItem) (s : Inner),
      (serverLoop cap addr id s input).ops = heartbeatOps cap input := by
  intro input
  induction input with
  | nil => intro s; rfl
  | cons x rest ih =>
    intro s
    cases x with
    | err => rfl
    | data b =>
      by_cases hc : cap < b.length
      · unfold serverLoop heartbeatOps
        rw [if_pos hc, if_pos hc]
      · unfold serverLoop heartbeatOps
        rw [if_neg hc, if_neg hc]
        show SOp.apply :: SOp.sleepOne
            :: (serverLoop cap addr id (update_server s id addr b).1 rest).ops
          = SOp.apply :: SOp.sleepOne :: heartbeatOps cap rest
        rw [ih]

theorem serverOps_cases (cap ip id : Nat) (s : Inner) (input : List StreamItem) :
    serverOps cap ip id s input = []
      ∨ ∃ rest, serverOps cap ip id s input = heartbeatOps cap rest := by
  cases input with
  | nil => exact Or.inl rfl
  | cons x rest =>
    cases x with
    | err => exact Or.inl rfl
    | data b =>
      by_cases hc : cap < b.length
      · refine Or.inl ?_
        show (if cap < b.length then (⟨s, false, []⟩ : LoopOut)
          else match helloDecode b with
            | none => ⟨s, false, []⟩
            | some port => serverLoop cap ⟨ip, port⟩ id s rest).ops = []
        rw [if_pos hc]
      · cases hd : helloDecode b with
        | none =>
          refine Or.inl ?_
          show (if cap < b.length then (⟨s, false, []⟩ : LoopOut)
            else match helloDecode b with
              | none => ⟨s, false, []⟩
              | some port => serverLoop cap ⟨ip, port⟩ id s rest).ops = []
          rw [if_neg hc, hd]
        | some port =>
          refine Or.inr ⟨rest, ?_⟩
          show (if cap < b.length then (⟨s, false, []⟩ : LoopOut)
            else match helloDecode b with
              | none => ⟨s, false, []⟩
              | some port => serverLoop cap ⟨ip, port⟩ id s rest).ops = heartbeatOps cap rest
          rw [if_neg hc, hd]
          exact serverLoop_ops_eq cap ⟨ip, port⟩ id rest s

theorem heartbeatOps_gap {cap : Nat} {input : List StreamItem} {t : List Nat} {i j : Nat}
    (ht : Timed (heartbeatOps cap input) t) (hij : i < j)
    (hi : (heartbeatOps cap input).get? i = some SOp.apply)
    (hj : (heartbeatOps cap input).get? j = some SOp.apply) :
    t.getD i 0 + 1 ≤ t.getD j 0 := by
  have hpi := heartbeatOps_apply_pattern cap input i hi
  have hpj := heartbeatOps_apply_pattern cap input j hj
  have hij2 : i + 1 < j := by
    rcases Nat.lt_or_ge (i + 1) j with h1 | h1
    · exact h1
    · have : j = i + 1 := by omega
      subst this
      omega
  exact timed_gap ht hij2 (Nat.le_of_lt (get?_lt_length hj)) hpi.2

/-- C1: the registry invariant claimed for dirty ids fails on the code.  The
state reached by a server connecting (entry inserted, no heartbeat yet) and
a client then connecting is reachable, and in it the client has id 0 in its
dirty set while the entry for id 0 still has no address; the subsequent
`take_delta` hits the panic modelled as `none`. -/
theorem dirty_id_without_address_reachable :
    Reachable sBug ∧ slabGet sBug.clients 0 = some { dirty := [0], lost := [] } ∧
    slabGet sBug.servers 0 = some { address := none, state := [] } ∧
    take_delta sBug 0 = none := by
  have h1 : Step Inner.empty t1 := Step.insertServer Inner.empty 0 (by decide)
  have h2 : Step t1 sBug := Step.insertClient t1 0 (by decide)
  exact ⟨Relation.ReflTransGen.tail (Relation.ReflTransGen.tail Relation.ReflTransGen.refl h1) h2,
    by decide, by decide, by decide⟩

/-- C2: `insert_client` does not exclude servers whose address is still
`none`.  With one live server that has not heartbeated, the admitted client
gets dirty = [0] instead of the claimed empty set. -/
theorem insert_client_includes_addressless_server :
    slabGet t1.servers 0 = some { address := none, state := [] } ∧
    slabGet (insert_client t1 0).clients 0 = some { dirty := [0], lost := [] } := by decide

/-- C3 counterexample: in a state where the client still has id 0 in its
dirty set (it never transmitted it), `remove_server` nevertheless appends 0
to the lost list, contradicting the claim that a lost entry is appended only
when the id was not in the just-removed dirty set. -/
theorem remove_server_appends_lost_despite_dirty :
    slabGet t3.clients 0 = some { dirty := [0], lost := [] } ∧
    slabGet (remove_server t3 0).clients 0 = some { dirty := [], lost := [0] } := by decide

/-- C3 amended: `remove_server` removes the id from every dirty set and
appends it to every lost list unconditionally, whether or not the id was
still dirty, and frees the server slot. -/
theorem remove_server_unconditional_lost (s : Inner) (id cid : Nat) (c : Client)
    (hc : slabGet s.clients cid = some c) :
    slabGet (remove_server s id).clients cid
      = some { dirty := indexSetSwapRemove c.dirty id, lost := c.lost ++ [id] } ∧
    slabGet (remove_server s id).servers id = none := by
  constructor
  · show slabGet (s.clients.map (Option.map (fun c : Client =>
      ({ dirty := indexSetSwapRemove c.dirty id, lost := c.lost ++ [id] } : Client)))) cid
      = some { dirty := indexSetSwapRemove c.dirty id, lost := c.lost ++ [id] }
    rw [slabGet_map, hc]
    rfl
  · exact slabGet_set_none _ _

/-- Witness for the amended C3 theorem at the concrete state `t3`. -/
theorem remove_server_unconditional_lost_witness :
    slabGet t3.clients 0 = some { dirty := [0], lost := [] } ∧
    slabGet (remove_server t3 0).clients 0
      = some { dirty := indexSetSwapRemove [0] 0, lost := [] ++ [0] } ∧
    slabGet (remove_server t3 0).servers 0 = none :=
  ⟨by decide, (remove_server_unconditional_lost t3 0 0 ⟨[0], []⟩ (by decide)).1,
    (remove_server_unconditional_lost t3 0 0 ⟨[0], []⟩ (by decide)).2⟩

/-- C4 counterexample: in a state where the client has id 0 in its lost
list, an `update_server` for id 0 that returns true leaves 0 in the lost
list while also inserting it into the dirty set, contradicting the claim
that the id is first removed from every lost list. -/
theorem update_server_leaves_lost_intact :
    slabGet t6.clients 0 = some { dirty := [], lost := [0] } ∧
    (update_server t6 0 addrA [7]).2 = true ∧
    slabGet (update_server t6 0 addrA [7]).1.clients 0
      = some { dirty := [0], lost := [0] } := by decide

/-- C4 amended: for a live id, `update_server` returns true exactly when the
address or the state changed; on false the registry is untouched; on true it
stores the new address and state and inserts the id into the dirty set of
every client while leaving every lost list unchanged.  The returned flag is
also the broadcast flag: `dirty_notify` is notified exactly when it is
true. -/
theorem update_server_spec (s : Inner) (id : Nat) (addr : SocketAddr) (st : List Nat)
    (srv : Server) (h : slabGet s.servers id = some srv) :
    ((update_server s id addr st).2 = true ↔ (st ≠ srv.state ∨ some addr ≠ srv.address)) ∧
    ((update_server s id addr st).2 = false → (update_server s id addr st).1 = s) ∧
    ((update_server s id addr st).2 = true →
      slabGet (update_server s id addr st).1.servers id
        = some { address := some addr, state := st } ∧
      ∀ cid c, slabGet s.clients cid = some c →
        slabGet (update_server s id addr st).1.clients cid
          = some { dirty := indexSetInsert c.dirty id, lost := c.lost }) := by
  have hlen : id < s.servers.length := slabGet_lt (by rw [h]; simp)
  have he : update_server s id addr st =
      if st ≠ srv.state ∨ some addr ≠ srv.address then (applyHeartbeat s id addr st, true)
      else (s, false) := by
    unfold update_server
    rw [h]
  by_cases hcond : st ≠ srv.state ∨ some addr ≠ srv.address
  · rw [he, if_pos hcond]
    refine ⟨⟨fun _ => hcond, fun _ => rfl⟩, fun hx => absurd hx (by simp), fun _ => ⟨?_, ?_⟩⟩
    · show slabGet (s.servers.set id (some { address := some addr, state := st })) id = _
      exact slabGet_set_self _ _ _ hlen
    · intro cid c hc
      show slabGet (s.clients.map (Option.map (fun c : Client =>
        ({ dirty := indexSetInsert c.dirty id, lost := c.lost } : Client)))) cid
        = some { dirty := indexSetInsert c.dirty id, lost := c.lost }
      rw [slabGet_map, hc]
      rfl
  · rw [he, if_neg hcond]
    exact ⟨⟨fun hx => absurd hx (by simp), fun hcc => absurd hcc hcond⟩, fun _ => rfl,
      fun hx => absurd hx (by simp)⟩

/-- Witness for the amended C4 theorem at the concrete state `s4w`. -/
theorem update_server_spec_witness :
    slabGet s4w.servers 0 = some { address := none, state := [] } ∧
    ((update_server s4w 0 addrA [7]).2 = true ↔
      ([7] ≠ (Server.mk none []).state ∨ some addrA ≠ (Server.mk none []).address)) :=
  ⟨by decide, (update_server_spec s4w 0 addrA [7] ⟨none, []⟩ (by decide)).1⟩

/-- C5: when the client is live and every dirty id refers to a live server
with an address, `take_delta` returns the message made of one Shutdown per
lost id followed by one Update per dirty id carrying the current address and
state of that server, and resets the client to empty dirty and lost. -/
theorem take_delta_spec (s : Inner) (cid : Nat) (c : Client)
    (hc : slabGet s.clients cid = some c)
    (hv : ∀ i ∈ c.dirty, ((slabGet s.servers i).bind Server.address).isSome = true) :
    take_delta s cid = some
      ({ s with clients := s.clients.set cid (some { dirty := [], lost := [] }) },
       c.lost.map (fun i => ⟨i, Event.shutdown⟩) ++ c.dirty.map (dirtyDelta s.servers)) ∧
    slabGet (s.clients.set cid (some { dirty := [], lost := [] })) cid
      = some { dirty := [], lost := [] } ∧
    ∀ i srv a, slabGet s.servers i = some srv → srv.address = some a →
      dirtyDelta s.servers i = ⟨i, Event.update a srv.state⟩ := by
  refine ⟨?_, ?_, fun i srv a hs ha => dirtyDelta_eq hs ha⟩
  · rw [take_delta_eq_some hc, dirtyDeltas_eq_map s.servers c.dirty hv]
    rfl
  · exact slabGet_set_self _ _ _ (slabGet_lt (by rw [hc]; simp))

/-- Witness for the C5 theorem at the concrete state `s5w`: the Shutdown for
the lost id precedes the Update for the dirty id, and the Update carries the
stored address and state. -/
theorem take_delta_spec_witness :
    take_delta s5w 0 = some
      ({ s5w with clients := s5w.clients.set 0 (some { dirty := [], lost := [] }) },
       [(⟨5, Event.shutdown⟩ : ServerDelta), ⟨0, Event.update addrA [7]⟩]) :=
  ((take_delta_spec s5w 0 ⟨[0], [5]⟩ (by decide) (by decide)).1).trans (by decide)

/-- C6 counterexample: with slab id reuse the claimed invariant fails.  The
trace server-connect, heartbeat, client-connect, client-transmit,
server-drop, new-server-connect (id 0 reused), heartbeat reaches a state in
which id 0 is simultaneously in the dirty set and the lost list of the same
client. -/
theorem dirty_lost_overlap_reachable :
    Reachable t7 ∧ slabGet t7.clients 0 = some { dirty := [0], lost := [0] } := by
  have h1 : Step Inner.empty t1 := Step.insertServer Inner.empty 0 (by decide)
  have h2 : Step t1 t2 := Step.updateServer t1 0 addrA [7] (by decide)
  have h3 : Step t2 t3 := Step.insertClient t2 0 (by decide)
  have h4 : Step t3 t4 := Step.takeDelta t3 0 t4 [⟨0, Event.update addrA [7]⟩] (by decide)
  have h5 : Step t4 t5 := Step.removeServer t4 0 (by decide)
  have h6 : Step t5 t6 := Step.insertServer t5 0 (by decide)
  have h7 : Step t6 t7 := Step.updateServer t6 0 addrA [7] (by decide)
  refine ⟨?_, by decide⟩
  exact Relation.ReflTransGen.tail (Relation.ReflTransGen.tail (Relation.ReflTransGen.tail
    (Relation.ReflTransGen.tail (Relation.ReflTransGen.tail (Relation.ReflTransGen.tail
      (Relation.ReflTransGen.tail Relation.ReflTransGen.refl h1) h2) h3) h4) h5) h6) h7

/-- C6 amended: along traces in which a server slot is only allocated while
its id is absent from every dirty set and lost list, no id is ever
simultaneously in the dirty set and the lost list of the same client. -/
theorem no_dirty_lost_overlap_fresh (s : Inner) (h : ReachableFresh s) (cid : Nat) (c : Client)
    (hc : slabGet s.clients cid = some c) (i : Nat) (hd : i ∈ c.dirty) : i ∉ c.lost := by
  obtain ⟨-, hdl, hld⟩ := goodState_of_reachableFresh h cid c hc
  intro hil
  exact (hdl i hd) (hld i hil)

/-- Witness for the amended C6 theorem along the fresh trace up to `t3`. -/
theorem no_dirty_lost_overlap_fresh_witness :
    ReachableFresh t3 ∧ slabGet t3.clients 0 = some { dirty := [0], lost := [] } ∧
    (0 : Nat) ∉ (Client.mk [0] []).lost := by
  have h1 : StepFresh Inner.empty t1 := StepFresh.insertServer Inner.empty 0 (by decide)
    (fun cid c hc => by
      rw [show Inner.empty.clients = [] from rfl, slabGet_nil] at hc
      exact Option.noConfusion hc)
  have h2 : StepFresh t1 t2 := StepFresh.updateServer t1 0 addrA [7] (by decide)
  have h3 : StepFresh t2 t3 := StepFresh.insertClient t2 0 (by decide)
  have hF : ReachableFresh t3 :=
    Relation.ReflTransGen.tail (Relation.ReflTransGen.tail
      (Relation.ReflTransGen.tail Relation.ReflTransGen.refl h1) h2) h3
  exact ⟨hF, by decide, no_dirty_lost_overlap_fresh t3 hF 0 ⟨[0], []⟩ (by decide) 0 (by decide)⟩

/-- C7 counterexample: a server session whose stream source ends without an
error after the Hello terminates with Ok, and `handle_server` then skips the
cleanup, leaving the entry live in the slab. -/
theorem clean_exit_leaves_entry :
    (server_inner 8192 9 0 (insert_server Inner.empty 0) [StreamItem.data [48, 117]]).ok = true ∧
    slabGet (handle_server 8192 9 0 Inner.empty [StreamItem.data [48, 117]]).servers 0
      = some { address := none, state := [] } := by decide

/-- C7 amended: whenever `server_inner` terminates with an error (connection
loss, oversized input, malformed Hello), `handle_server` runs the cleanup
and the entry of the session is removed from the slab. -/
theorem error_exit_removes_entry (cap ip i : Nat) (s : Inner) (input : List StreamItem)
    (h : (server_inner cap ip i (insert_server s i) input).ok = false) :
    slabGet (handle_server cap ip i s input).servers i = none := by
  show slabGet (if (server_inner cap ip i (insert_server s i) input).ok
      then (server_inner cap ip i (insert_server s i) input).reg
      else remove_server (server_inner cap ip i (insert_server s i) input).reg i).servers i
    = none
  rw [h, if_neg (by simp)]
  exact slabGet_set_none _ _

/-- Witness for the amended C7 theorem: a transport error before the Hello. -/
theorem error_exit_removes_entry_witness :
    (server_inner 4 9 0 (insert_server Inner.empty 0) [StreamItem.err]).ok = false ∧
    slabGet (handle_server 4 9 0 Inner.empty [StreamItem.err]).servers 0 = none :=
  ⟨by decide, error_exit_removes_entry 4 9 0 Inner.empty [StreamItem.err] (by decide)⟩

/-- C8: under any timestamping in which time is monotone and a one-second
sleep advances it by at least one unit, two heartbeat applications of the
same server session are at least one unit apart, and two sends of the same
client session are at least one unit apart with a dirty-notification await
strictly between them. -/
theorem rate_limit_floor :
    (∀ cap ip id : Nat, ∀ s : Inner, ∀ input : List StreamItem, ∀ t : List Nat, ∀ i j : Nat,
      Timed (serverOps cap ip id s input) t → i < j →
      (serverOps cap ip id s input).get? i = some SOp.apply →
      (serverOps cap ip id s input).get? j = some SOp.apply →
      t.getD i 0 + 1 ≤ t.getD j 0) ∧
    (∀ n : Nat, ∀ t : List Nat, ∀ i j : Nat,
      Timed (clientOps n) t → i < j →
      (clientOps n).get? i = some SOp.send → (clientOps n).get? j = some SOp.send →
      t.getD i 0 + 1 ≤ t.getD j 0 ∧
        ∃ k, i < k ∧ k < j ∧ (clientOps n).get? k = some SOp.waitNotify) := by
  constructor
  · intro cap ip id s input t i j ht hij hi hj
    rcases serverOps_cases cap ip id s input with hnil | ⟨rest, hre⟩
    · rw [hnil] at hi
      exact absurd hi (by simp)
    · rw [hre] at ht hi hj
      exact heartbeatOps_gap ht hij hi hj
  · intro n t i j ht hij hi hj
    have hpi := clientOps_send_pattern n i hi
    have hpj := clientOps_send_pattern n j hj
    have hij3 : i + 2 < j := by
      have h1 : i % 3 = 0 := hpi.1
      have h2 : j % 3 = 0 := hpj.1
      omega
    refine ⟨?_, i + 2, by omega, by omega, hpi.2.2⟩
    exact timed_gap ht (by omega) (Nat.le_of_lt (get?_lt_length hj)) hpi.2.1

/-- Witness for the C8 theorem: a session with two heartbeats and a client
loop with two sends, timed with unit gaps at the sleeps. -/
theorem rate_limit_floor_witness :
    Timed (serverOps 8192 9 0 Inner.empty
      [StreamItem.data [0, 0], StreamItem.data [], StreamItem.data []]) [0, 0, 1, 1, 2] ∧
    [0, 0, 1, 1, 2].getD (0 : Nat) 0 + 1 ≤ [0, 0, 1, 1, 2].getD 2 0 ∧
    Timed (clientOps 2) [0, 0, 1, 1, 1, 2, 2] ∧
    [0, 0, 1, 1, 1, 2, 2].getD (0 : Nat) 0 + 1 ≤ [0, 0, 1, 1, 1, 2, 2].getD 3 0 := by
  refine ⟨by decide, ?_, by decide, ?_⟩
  · exact rate_limit_floor.1 8192 9 0 Inner.empty
      [StreamItem.data [0, 0], StreamItem.data [], StreamItem.data []] [0, 0, 1, 1, 2] 0 2
      (by decide) (by decide) (by decide) (by decide)
  · exact (rate_limit_floor.2 2 [0, 0, 1, 1, 1, 2, 2] 0 3
      (by decide) (by decide) (by decide) (by decide)).1

/-- C9 counterexample: a completed handshake whose negotiated ALPN is absent
or unknown makes `dispatch` panic instead of logging and dropping the
connection. -/
theorem dispatch_panics_on_unknown_alpn :
    dispatch (ConnOutcome.hsOk (some [0])) = DispatchOut.panicked ∧
    dispatch (ConnOutcome.hsOk none) = DispatchOut.panicked ∧
    DispatchOut.panicked ≠ DispatchOut.logDrop := by decide

/-- C9 amended: `dispatch` routes the game ALPN to a server session and the
client ALPN to a client session, and logs and drops failed handshakes; a
completed handshake with any other (or absent) negotiated ALPN — which the
transport cannot produce, since its ALPN allow-list is exactly these two —
panics the dispatch task instead of logging and dropping. -/
theorem dispatch_routing :
    dispatch ConnOutcome.hsFail = DispatchOut.logDrop ∧
    dispatch (ConnOutcome.hsOk (some gamePROTOCOL)) = DispatchOut.serverSession ∧
    dispatch (ConnOutcome.hsOk (some clientPROTOCOL)) = DispatchOut.clientSession ∧
    ∀ a : Option (List Nat), a ≠ some gamePROTOCOL → a ≠ some clientPROTOCOL →
      dispatch (ConnOutcome.hsOk a) = DispatchOut.panicked := by
  refine ⟨rfl, by decide, by decide, ?_⟩
  intro a h1 h2
  cases a with
  | none => rfl
  | some l =>
    show (if l = gamePROTOCOL then DispatchOut.serverSession
      else if l = clientPROTOCOL then DispatchOut.clientSession
      else DispatchOut.panicked) = DispatchOut.panicked
    rw [if_neg (fun he => h1 (by rw [he])), if_neg (fun he => h2 (by rw [he]))]

/-- Witness for the amended C9 theorem at a concrete unknown ALPN. -/
theorem dispatch_routing_witness :
    some [9] ≠ some gamePROTOCOL ∧ some [9] ≠ some clientPROTOCOL ∧
    dispatch (ConnOutcome.hsOk (some [9])) = DispatchOut.panicked :=
  ⟨by decide, by decide, dispatch_routing.2.2.2 (some [9]) (by decide) (by decide)⟩

/-- C10: calling `update_server` again with the values it just stored (or
that were already stored) returns false and leaves the registry exactly as
it was: no entry, dirty set or lost list changes, and no broadcast. -/
theorem update_server_idempotent (s : Inner) (id : Nat) (addr : SocketAddr) (st : List Nat)
    (h : slabGet s.servers id ≠ none) :
    update_server (update_server s id addr st).1 id addr st
      = ((update_server s id addr st).1, false) := by
  cases hs : slabGet s.servers id with
  | none => exact absurd hs h
  | some srv =>
    have hlen : id < s.servers.length := slabGet_lt h
    have he : update_server s id addr st =
        if st ≠ srv.state ∨ some addr ≠ srv.address then (applyHeartbeat s id addr st, true)
        else (s, false) := by
      unfold update_server
      rw [hs]
    by_cases hcond : st ≠ srv.state ∨ some addr ≠ srv.address
    · rw [he, if_pos hcond]
      show update_server (applyHeartbeat s id addr st) id addr st
        = (applyHeartbeat s id addr st, false)
      have h2 : slabGet (applyHeartbeat s id addr st).servers id
          = some { address := some addr, state := st } := slabGet_set_self _ _ _ hlen
      have he2 : update_server (applyHeartbeat s id addr st) id addr st =
          if st ≠ ({ address := some addr, state := st } : Server).state
              ∨ some addr ≠ ({ address := some addr, state := st } : Server).address then
            (applyHeartbeat (applyHeartbeat s id addr st) id addr st, true)
          else (applyHeartbeat s id addr st, false) := by
        unfold update_server
        rw [h2]
      rw [he2, if_neg (by simp)]
    · rw [he, if_neg hcond]
      show update_server s id addr st = (s, false)
      rw [he, if_neg hcond]

/-- Witness for the C10 theorem at the concrete state `s10w`. -/
theorem update_server_idempotent_witness :
    slabGet s10w.servers 0 ≠ none ∧
    update_server (update_server s10w 0 addrA [3]).1 0 addrA [3]
      = ((update_server s10w 0 addrA [3]).1, false) :=
  ⟨by decide, update_server_idempotent s10w 0 addrA [3] (by decide)⟩

end Metaserve
